import Mathlib

/-!
Shallow embedding of the album store of this repository
(`src/stores/album.ts`, re-exported types in `src/types/album.ts`).

The store keeps a visible collection of albums, a filter-keyed read
cache, a per-album in-flight vote set, pagination metadata and an error
slot.  Remote calls (`fetch`) are modelled by an explicit
`RemoteResult` argument: `ok` carries the parsed JSON body of a 2xx
response, `err` carries the message produced by the `catch` block
(`'Failed to fetch albums'` / `'Failed to vote'` for a non-2xx
response, the transport error's message otherwise).  Each operation is
a pure function from the pre-state and the remote outcome to an
`Outcome` recording the post-state, whether the remote authority was
consulted, and the re-raised failure (if any).
-/

/-- The vote value union type `'up' | 'down'` (`VoteType` in the source). -/
inductive VoteValue where
  | up
  | down
deriving DecidableEq, Repr

/-- The `Vote` interface of `src/types/album.ts`. -/
structure Vote where
  id : Nat
  album_id : Nat
  user_id : Nat
  vote : VoteValue
  created_at : String
  updated_at : String
deriving DecidableEq, Repr

/-- The `Album` interface of `src/types/album.ts`. -/
structure Album where
  id : Nat
  song_name : String
  artist_name : String
  album_cover : Option String
  created_at : String
  updated_at : String
  votes : List Vote
deriving DecidableEq, Repr

/-- The `PaginationLink` interface of `src/types/album.ts`. -/
structure PaginationLink where
  url : Option String
  label : String
  active : Bool
deriving DecidableEq, Repr

/-- The `PaginatedAlbumResponse` interface of `src/types/album.ts`.
The TS fields `from` and `to` are renamed `fromItem` / `toItem` because
both are Lean keywords. -/
structure PaginatedAlbumResponse where
  current_page : Nat
  data : List Album
  first_page_url : String
  fromItem : Nat
  last_page : Nat
  last_page_url : String
  links : List PaginationLink
  next_page_url : Option String
  path : String
  per_page : Nat
  prev_page_url : Option String
  toItem : Nat
  total : Nat
deriving DecidableEq, Repr

/-- The `VoteResponse` interface of `src/types/album.ts`. -/
structure VoteResponse where
  success : Bool
  votes : List Vote
deriving DecidableEq, Repr

/-- The `AlbumFilters` interface of `src/types/album.ts`:
`{ page: number; search: string }`.  Pages are integers here; the spec
restricts them to integers `≥ 1`. -/
structure AlbumFilters where
  page : Int
  search : String
deriving DecidableEq, Repr

/-- The `calculateVoteCounts` helper of `src/types/album.ts`: a `reduce`
over the vote list that increments `up` on an `'up'` vote and `down` on a
`'down'` vote, starting from `{ up: 0, down: 0 }`. -/
def calculateVoteCounts (votes : List Vote) : Nat × Nat :=
  votes.foldl
    (fun acc vote =>
      match vote.vote with
      | VoteValue.up => (acc.1 + 1, acc.2)
      | VoteValue.down => (acc.1, acc.2 + 1))
    (0, 0)

/-- The net score `aVotes.up - aVotes.down` used by the `sortedAlbums`
comparator in `src/stores/album.ts`. -/
def netScore (a : Album) : Int :=
  ((calculateVoteCounts a.votes).1 : Int) - ((calculateVoteCounts a.votes).2 : Int)

/-- Model of `String.prototype.localeCompare` as used by the ranking
comparator: a three-valued comparison on strings, negative when the
receiver sorts before the argument.  Locale tables are outside the
embedding; the (default-locale, code-point) string order stands in. -/
def localeCompare (s t : String) : Int :=
  if s < t then -1 else if t < s then 1 else 0

/-- The comparator passed to `Array.prototype.sort` by `sortedAlbums` in
`src/stores/album.ts`: net score descending, ties by `song_name`
ascending via `localeCompare`. -/
def albumCompare (a b : Album) : Int :=
  if netScore b ≠ netScore a then netScore b - netScore a
  else localeCompare a.song_name b.song_name

/-- The boolean "sorts no later than" relation induced by `albumCompare`:
`a` may precede `b` exactly when the comparator is non-positive. -/
def albumLe (a b : Album) : Bool :=
  decide (albumCompare a b ≤ 0)

/-- The `sortedAlbums` computed property of `src/stores/album.ts`:
`[...albums.value].sort(comparator)`.  `Array.prototype.sort` is a stable
sort (ES2019), modelled by the stable `List.mergeSort`; the spread copy
makes it non-mutating, which is inherent here. -/
def sortedAlbums (albums : List Album) : List Album :=
  albums.mergeSort albumLe

/-- The `getCacheKey` helper of `src/stores/album.ts`: the template
literal `` `${filters.page}-${filters.search}` ``, i.e. the decimal
rendering of the page, a dash, and the search text. -/
def getCacheKey (filters : AlbumFilters) : String :=
  toString filters.page ++ "-" ++ filters.search

/-- Lookup in the `Map<string, PaginatedAlbumResponse>` cache, modelled
as an association list read front-to-back (`Map.get` / `Map.has`). -/
def cacheGet {α : Type} (cache : List (String × α)) (key : String) : Option α :=
  match cache with
  | [] => none
  | (k, v) :: rest => if k = key then some v else cacheGet rest key

/-- `Map.set`: the new binding shadows any earlier binding for the key. -/
def cacheSet {α : Type} (cache : List (String × α)) (key : String) (val : α) :
    List (String × α) :=
  (key, val) :: cache

/-- The mutable state held by the `useAlbumStore` Pinia store:
`albums`, `loading`, `voteLoading` (a set of album ids), `error`,
`totalPages`, `currentPage`, `searchQuery` and the read `cache`. -/
structure AlbumStore where
  albums : List Album
  loading : Bool
  voteLoading : List Nat
  error : Option String
  totalPages : Nat
  currentPage : Nat
  searchQuery : String
  cache : List (String × PaginatedAlbumResponse)
deriving DecidableEq, Repr

/-- Outcome of one remote call as seen by the store: `ok` holds the
parsed 2xx body, `err` holds the message the `catch` block records. -/
inductive RemoteResult (α : Type) where
  | ok (val : α)
  | err (msg : String)
deriving DecidableEq, Repr

/-- Result of running one store operation: the post-state, whether the
remote authority was actually consulted, and the failure re-raised to
the caller (`none` when the operation returns normally). -/
structure Outcome where
  store : AlbumStore
  remoteCalled : Bool
  thrown : Option String
deriving DecidableEq, Repr

/-- `fetchAlbums(filters)` of `src/stores/album.ts`.  On a cache hit the
visible collection and `totalPages` are set from the cached page and the
function returns — `loading`, `error` and the cache are untouched and no
remote call is made.  On a miss the remote list endpoint is called; a 2xx
response replaces the visible collection and `totalPages`, stores the
page under the computed key and clears `error`; a failure records the
message in `error` and changes nothing else.  `loading` is `true` only
inside the call and is reset by `finally`; failures are swallowed
(`thrown = none`). -/
def fetchAlbums (st : AlbumStore) (filters : AlbumFilters)
    (remote : RemoteResult PaginatedAlbumResponse) : Outcome :=
  match cacheGet st.cache (getCacheKey filters) with
  | some cached =>
    ⟨{ st with albums := cached.data, totalPages := cached.last_page }, false, none⟩
  | none =>
    match remote with
    | RemoteResult.ok body =>
      ⟨{ st with
          loading := false
          error := none
          albums := body.data
          totalPages := body.last_page
          cache := cacheSet st.cache (getCacheKey filters) body }, true, none⟩
    | RemoteResult.err msg =>
      ⟨{ st with loading := false, error := some msg }, true, none⟩

/-- The entry phase of `voteAlbum` past the guard: `voteLoading.add(albumId)`
followed by `error.value = null`.  The guard ensures `albumId` is absent
when this runs, so consing models `Set.add`. -/
def voteStart (st : AlbumStore) (albumId : Nat) : AlbumStore :=
  { st with voteLoading := albumId :: st.voteLoading, error := none }

/-- The `finally` clause of `voteAlbum`: `voteLoading.delete(albumId)`. -/
def voteFinish (st : AlbumStore) (albumId : Nat) : AlbumStore :=
  { st with voteLoading := st.voteLoading.filter (fun x => x != albumId) }

/-- The success path's reconciliation in `voteAlbum`:
`albums.value.findIndex(a => a.id === albumId)` followed, when the index
is not `-1`, by replacing that element with a copy whose `votes` field is
the response's vote set.  Modelled as: replace the first album whose id
matches, keep everything else. -/
def setVotesFirst : List Album → Nat → List Vote → List Album
  | [], _, _ => []
  | a :: rest, albumId, vs =>
    if a.id = albumId then { a with votes := vs } :: rest
    else a :: setVotesFirst rest albumId vs

/-- `voteAlbum(albumId, voteType)` of `src/stores/album.ts`.  If the id
is already in `voteLoading` the call returns at once (no remote call, no
state change, nothing thrown).  Otherwise the id is added to
`voteLoading`, `error` is cleared, and the vote endpoint is called: on
success the target album's `votes` are wholesale replaced by the
response's vote set (no album changes when the id is absent) and the
cache is cleared; on failure the message is recorded in `error` and
re-thrown.  `finally` removes the id from `voteLoading` on both paths. -/
def voteAlbum (st : AlbumStore) (albumId : Nat) (voteType : VoteValue)
    (remote : RemoteResult VoteResponse) : Outcome :=
  if albumId ∈ st.voteLoading then ⟨st, false, none⟩
  else
    let entered := voteStart st albumId
    match remote with
    | RemoteResult.ok body =>
      ⟨voteFinish
        { entered with
            albums := setVotesFirst entered.albums albumId body.votes
            cache := [] } albumId, true, none⟩
    | RemoteResult.err msg =>
      ⟨voteFinish { entered with error := some msg } albumId, true, some msg⟩

/-- `deleteAlbum(albumId)` of `src/stores/album.ts`: the delete endpoint
is always called; on success the album is removed from the visible
collection by id and the cache is cleared; on failure the message is
recorded in `error` and re-thrown, with collection and cache untouched. -/
def deleteAlbum (st : AlbumStore) (albumId : Nat)
    (remote : RemoteResult Unit) : Outcome :=
  match remote with
  | RemoteResult.ok _ =>
    ⟨{ st with albums := st.albums.filter (fun a => a.id != albumId), cache := [] },
      true, none⟩
  | RemoteResult.err msg =>
    ⟨{ st with error := some msg }, true, some msg⟩

/-- The spec's `ready` session state on this store: not loading and no
recorded error. -/
def sessionReady (st : AlbumStore) : Prop :=
  st.loading = false ∧ st.error = none

/-- The spec's `errored` session state on this store: not loading with a
recorded error message. -/
def sessionErrored (st : AlbumStore) : Prop :=
  st.loading = false ∧ st.error ≠ none

/-- One step of decimal decoding, used to show that `Nat.repr` is
injective: consume one character of a digit string. -/
def digitStep (a : Nat) (c : Char) : Nat :=
  10 * a + (c.toNat - 48)

/-- A concrete up-vote used by the concrete instantiations below. -/
def sampleVoteUp : Vote :=
  ⟨1, 1, 1, VoteValue.up, "2024-01-01", "2024-01-01"⟩

/-- A concrete down-vote used by the concrete instantiations below. -/
def sampleVoteDown : Vote :=
  ⟨2, 1, 2, VoteValue.down, "2024-01-02", "2024-01-02"⟩

/-- A concrete album with one up-vote. -/
def sampleAlbum : Album :=
  ⟨1, "Abbey Road", "The Beatles", none, "2024-01-01", "2024-01-01", [sampleVoteUp]⟩

/-- A second concrete album with one down-vote. -/
def sampleAlbum2 : Album :=
  ⟨2, "Blue Train", "John Coltrane", none, "2024-01-01", "2024-01-01", [sampleVoteDown]⟩

/-- A concrete one-page list response holding `sampleAlbum`. -/
def sampleResponse : PaginatedAlbumResponse :=
  ⟨1, [sampleAlbum], "p1", 1, 1, "p1", [], none, "api/albums", 10, none, 1, 1⟩

/-- A concrete vote response carrying a two-element authoritative vote set. -/
def sampleVoteResponse : VoteResponse :=
  ⟨true, [sampleVoteUp, sampleVoteDown]⟩

/-- A store holding `sampleAlbum` with nothing in flight and an empty cache. -/
def storeWithAlbum : AlbumStore :=
  ⟨[sampleAlbum], false, [], none, 1, 1, "", []⟩

/-- The same store while a vote for album 1 is in flight. -/
def storeInFlight : AlbumStore :=
  ⟨[sampleAlbum], false, [1], none, 1, 1, "", []⟩

/-- The `reduce` in `calculateVoteCounts`, characterised from any
accumulator: it adds the number of up-votes to the first component and
the number of down-votes to the second. -/
theorem calculateVoteCounts_foldl (vs : List Vote) :
    ∀ acc : Nat × Nat,
      vs.foldl
        (fun acc vote =>
          match vote.vote with
          | VoteValue.up => (acc.1 + 1, acc.2)
          | VoteValue.down => (acc.1, acc.2 + 1)) acc
      = (acc.1 + (vs.filter (fun v => v.vote == VoteValue.up)).length,
         acc.2 + (vs.filter (fun v => v.vote == VoteValue.down)).length) := by
  induction vs with
  | nil => intro acc; simp
  | cons v rest ih =>
    intro acc
    cases h : v.vote <;>
      simp [List.filter_cons, h, ih] <;> omega

/-- The two filtered counts partition the vote list: every vote is
either an up-vote or a down-vote. -/
theorem vote_filter_partition (vs : List Vote) :
    (vs.filter (fun v => v.vote == VoteValue.up)).length
      + (vs.filter (fun v => v.vote == VoteValue.down)).length = vs.length := by
  induction vs with
  | nil => simp
  | cons v rest ih =>
    cases h : v.vote <;> simp [List.filter_cons, h, ih] <;> omega

/-- C9: `calculateVoteCounts` returns the pair of the number of `'up'`
votes and the number of `'down'` votes — a partition of the list, so the
two counts sum to its length — and the up-count minus the down-count is
exactly the net score the ranking comparator uses.  The function is a
total Lean function, so purity and totality are inherent. -/
theorem calculateVoteCounts_spec (vs : List Vote) (a : Album) :
    (calculateVoteCounts vs).1 = (vs.filter (fun v => v.vote == VoteValue.up)).length ∧
    (calculateVoteCounts vs).2 = (vs.filter (fun v => v.vote == VoteValue.down)).length ∧
    (calculateVoteCounts vs).1 + (calculateVoteCounts vs).2 = vs.length ∧
    netScore a = ((calculateVoteCounts a.votes).1 : Int)
      - ((calculateVoteCounts a.votes).2 : Int) := by
  have hchar := calculateVoteCounts_foldl vs (0, 0)
  rw [calculateVoteCounts, hchar]
  refine ⟨by simp, by simp, ?_, rfl⟩
  simpa using vote_filter_partition vs

/-- The comparator-induced boolean order unfolded into the spec's terms:
`a` sorts no later than `b` iff `a` has the strictly larger net score, or
the scores tie and `a.song_name` is no larger. -/
theorem albumLe_iff (a b : Album) :
    albumLe a b = true ↔
      (netScore b < netScore a ∨
        (netScore a = netScore b ∧ a.song_name ≤ b.song_name)) := by
  unfold albumLe albumCompare localeCompare
  rcases lt_trichotomy (netScore a) (netScore b) with hab | hab | hab
  · rw [if_pos (by omega)]
    simp only [decide_eq_true_eq]
    constructor
    · intro hle; omega
    · rintro (hlt | ⟨heq, _⟩) <;> omega
  · rw [if_neg (by omega)]
    by_cases hlt : a.song_name < b.song_name
    · rw [if_pos hlt]
      simp only [decide_eq_true_eq]
      constructor
      · intro _; exact Or.inr ⟨hab, le_of_lt hlt⟩
      · intro _; omega
    · by_cases hgt : b.song_name < a.song_name
      · rw [if_neg hlt, if_pos hgt]
        simp only [decide_eq_true_eq]
        constructor
        · intro h1; omega
        · rintro (h1 | ⟨heq, hle⟩)
          · omega
          · exact absurd hgt (not_lt.mpr hle)
      · rw [if_neg hlt, if_neg hgt]
        simp only [decide_eq_true_eq]
        constructor
        · intro _; exact Or.inr ⟨hab, not_lt.mp hgt⟩
        · intro _; omega
  · rw [if_pos (by omega)]
    simp only [decide_eq_true_eq]
    constructor
    · intro _; exact Or.inl hab
    · intro _; omega

/-- Transitivity of the comparator-induced order, as required for the
sortedness of the output of a comparison sort. -/
theorem albumLe_trans (a b c : Album) (h1 : albumLe a b) (h2 : albumLe b c) :
    albumLe a c := by
  rw [albumLe_iff] at h1 h2 ⊢
  rcases h1 with h1 | ⟨e1, s1⟩ <;> rcases h2 with h2 | ⟨e2, s2⟩
  · exact Or.inl (by omega)
  · exact Or.inl (by omega)
  · exact Or.inl (by omega)
  · exact Or.inr ⟨by omega, le_trans s1 s2⟩

/-- Totality of the comparator-induced order: any two albums compare. -/
theorem albumLe_total (a b : Album) : albumLe a b || albumLe b a := by
  rw [Bool.or_eq_true, albumLe_iff, albumLe_iff]
  rcases lt_trichotomy (netScore a) (netScore b) with h | h | h
  · exact Or.inr (Or.inl h)
  · rcases le_total a.song_name b.song_name with hs | hs
    · exact Or.inl (Or.inr ⟨h, hs⟩)
    · exact Or.inr (Or.inr ⟨h.symm, hs⟩)
  · exact Or.inl (Or.inl h)

/-- C8: `sortedAlbums` returns a permutation of its input (same length,
no loss or duplication), pairwise ordered by net score non-increasing
with score ties broken by `song_name` ascending, and the sort is stable:
any correctly-ordered pair keeps its relative order.  The input list is
untouched (the function is pure and operates on a spread copy). -/
theorem sortedAlbums_spec (l : List Album) :
    List.Perm (sortedAlbums l) l ∧
    (sortedAlbums l).length = l.length ∧
    List.Pairwise
      (fun a b => netScore b < netScore a ∨
        (netScore a = netScore b ∧ a.song_name ≤ b.song_name)) (sortedAlbums l) ∧
    (∀ a b : Album, albumLe a b = true →
      List.Sublist [a, b] l → List.Sublist [a, b] (sortedAlbums l)) := by
  refine ⟨List.mergeSort_perm l albumLe, (List.mergeSort_perm l albumLe).length_eq, ?_, ?_⟩
  · have hs := List.sorted_mergeSort albumLe_trans albumLe_total l
    exact hs.imp (fun hab => (albumLe_iff _ _).mp hab)
  · intro a b hab hsub
    exact List.pair_sublist_mergeSort albumLe_trans albumLe_total hab hsub

/-- Concrete instantiation of `sortedAlbums_spec` on a two-album list:
the down-voted album sorts after the up-voted one and both survive. -/
theorem sortedAlbums_spec_witness :
    List.Perm (sortedAlbums [sampleAlbum2, sampleAlbum]) [sampleAlbum2, sampleAlbum] ∧
    (sortedAlbums [sampleAlbum2, sampleAlbum]).length = [sampleAlbum2, sampleAlbum].length ∧
    List.Pairwise
      (fun a b => netScore b < netScore a ∨
        (netScore a = netScore b ∧ a.song_name ≤ b.song_name))
      (sortedAlbums [sampleAlbum2, sampleAlbum]) ∧
    (∀ a b : Album, albumLe a b = true →
      List.Sublist [a, b] [sampleAlbum2, sampleAlbum] →
      List.Sublist [a, b] (sortedAlbums [sampleAlbum2, sampleAlbum])) :=
  sortedAlbums_spec [sampleAlbum2, sampleAlbum]

/-- Unfolding of one fuel step of the decimal printer behind `Nat.repr`. -/
theorem toDigitsCore_succ (f n : Nat) (acc : List Char) :
    Nat.toDigitsCore 10 (f + 1) n acc =
      if n / 10 = 0 then Nat.digitChar (n % 10) :: acc
      else Nat.toDigitsCore 10 f (n / 10) (Nat.digitChar (n % 10) :: acc) := rfl

/-- Decimal digit characters are never the dash used as key separator. -/
theorem digitChar_ne_dash : ∀ m : Nat, m < 10 → Nat.digitChar m ≠ '-' := by decide

/-- Decoding a decimal digit character recovers the digit. -/
theorem digitChar_toNat : ∀ m : Nat, m < 10 → (Nat.digitChar m).toNat - 48 = m := by decide

/-- Folding the decimal decoder over the printer's output recovers the
printed number and then continues over the tail. -/
theorem toDigitsCore_foldl :
    ∀ (fuel n : Nat) (acc : List Char), n < fuel →
      List.foldl digitStep 0 (Nat.toDigitsCore 10 fuel n acc)
        = List.foldl digitStep n acc := by
  intro fuel
  induction fuel with
  | zero => intro n acc h; exact absurd h (Nat.not_lt_zero n)
  | succ f ih =>
    intro n acc h
    rw [toDigitsCore_succ]
    by_cases h10 : n / 10 = 0
    · rw [if_pos h10]
      have hn : n < 10 := by omega
      have hstep : digitStep 0 (Nat.digitChar (n % 10)) = n := by
        unfold digitStep
        rw [digitChar_toNat (n % 10) (by omega)]
        omega
      simp only [List.foldl_cons, hstep]
    · rw [if_neg h10]
      have hlt : n / 10 < f := by omega
      rw [ih (n / 10) _ hlt]
      have hstep : digitStep (n / 10) (Nat.digitChar (n % 10)) = n := by
        unfold digitStep
        rw [digitChar_toNat (n % 10) (by omega)]
        omega
      simp only [List.foldl_cons, hstep]

/-- No character produced by the decimal printer is a dash, as long as
none of the seed characters is. -/
theorem toDigitsCore_ne_dash :
    ∀ (fuel n : Nat) (acc : List Char), (∀ c ∈ acc, c ≠ '-') →
      ∀ c ∈ Nat.toDigitsCore 10 fuel n acc, c ≠ '-' := by
  intro fuel
  induction fuel with
  | zero => intro n acc hacc; exact hacc
  | succ f ih =>
    intro n acc hacc c hc
    rw [toDigitsCore_succ] at hc
    by_cases h10 : n / 10 = 0
    · rw [if_pos h10] at hc
      rcases List.mem_cons.mp hc with rfl | hmem
      · exact digitChar_ne_dash (n % 10) (by omega)
      · exact hacc c hmem
    · rw [if_neg h10] at hc
      refine ih (n / 10) _ ?_ c hc
      intro c' hc'
      rcases List.mem_cons.mp hc' with rfl | hmem
      · exact digitChar_ne_dash (n % 10) (by omega)
      · exact hacc c' hmem

/-- Decoding the decimal representation of `n` yields `n`. -/
theorem natRepr_foldl (n : Nat) :
    List.foldl digitStep 0 (Nat.repr n).data = n :=
  toDigitsCore_foldl (n + 1) n [] (Nat.lt_succ_self n)

/-- The decimal representation of a natural number contains no dash. -/
theorem natRepr_ne_dash (n : Nat) : ∀ c ∈ (Nat.repr n).data, c ≠ '-' :=
  toDigitsCore_ne_dash (n + 1) n [] (by intro c hc; exact absurd hc (List.not_mem_nil c))

/-- Distinct natural numbers print to distinct character lists. -/
theorem natRepr_data_injective {m n : Nat}
    (h : (Nat.repr m).data = (Nat.repr n).data) : m = n := by
  have hm := natRepr_foldl m
  rw [h, natRepr_foldl] at hm
  omega

/-- Splitting at the first dash: if both prefixes are dash-free, a
dash-separated concatenation determines its two parts. -/
theorem append_dash_cancel :
    ∀ (a b s1 s2 : List Char), (∀ c ∈ a, c ≠ '-') → (∀ c ∈ b, c ≠ '-') →
      a ++ '-' :: s1 = b ++ '-' :: s2 → a = b ∧ s1 = s2 := by
  intro a
  induction a with
  | nil =>
    intro b s1 s2 _ hb h
    cases b with
    | nil => simpa using h
    | cons y ys =>
      simp only [List.nil_append, List.cons_append, List.cons.injEq] at h
      exact absurd h.1.symm (hb y (List.mem_cons_self y ys))
  | cons x xs ih =>
    intro b s1 s2 ha hb h
    cases b with
    | nil =>
      simp only [List.nil_append, List.cons_append, List.cons.injEq] at h
      exact absurd h.1 (ha x (List.mem_cons_self x xs))
    | cons y ys =>
      simp only [List.cons_append, List.cons.injEq] at h
      have hrec := ih ys s1 s2
        (fun c hc => ha c (List.mem_cons_of_mem x hc))
        (fun c hc => hb c (List.mem_cons_of_mem y hc)) h.2
      exact ⟨by rw [h.1, hrec.1], hrec.2⟩

/-- Rendering a non-negative page number as an `Int` is rendering the
underlying natural number. -/
theorem intCast_toString_data (m : Nat) :
    (toString ((m : Nat) : Int)).data = (Nat.repr m).data := rfl

/-- The character list of a cache key: the rendered page, a dash, the
search text. -/
theorem getCacheKey_data (f : AlbumFilters) :
    (getCacheKey f).data = (toString f.page).data ++ '-' :: f.search.data := by
  simp [getCacheKey]

/-- C3: storing a page under a filter's canonical key and reading it
back with the same filter returns that page; reading with any other
filter (different page or different search text) finds nothing, because
`getCacheKey` is injective on filters whose page is an integer `≥ 1` —
the rendered page contains no dash, so the first dash of the key
separates the two fields unambiguously. -/
theorem getCacheKey_put_get (f f' : AlbumFilters) (p : PaginatedAlbumResponse)
    (h1 : 1 ≤ f.page) (h2 : 1 ≤ f'.page) :
    (∀ c : List (String × PaginatedAlbumResponse),
        cacheGet (cacheSet c (getCacheKey f) p) (getCacheKey f) = some p) ∧
    (f ≠ f' → cacheGet (cacheSet [] (getCacheKey f) p) (getCacheKey f') = none) ∧
    (getCacheKey f = getCacheKey f' → f = f') := by
  have inj : getCacheKey f = getCacheKey f' → f = f' := by
    intro hk
    obtain ⟨m, hm⟩ : ∃ m : Nat, f.page = (m : Int) :=
      ⟨f.page.toNat, (Int.toNat_of_nonneg (by omega)).symm⟩
    obtain ⟨m', hm'⟩ : ∃ m' : Nat, f'.page = (m' : Int) :=
      ⟨f'.page.toNat, (Int.toNat_of_nonneg (by omega)).symm⟩
    have hd := congrArg String.data hk
    rw [getCacheKey_data, getCacheKey_data, hm, hm',
      intCast_toString_data, intCast_toString_data] at hd
    have hsplit := append_dash_cancel _ _ _ _ (natRepr_ne_dash m) (natRepr_ne_dash m') hd
    have hpage : f.page = f'.page := by
      rw [hm, hm', natRepr_data_injective hsplit.1]
    have hsearch : f.search = f'.search := congrArg String.mk hsplit.2
    cases f
    cases f'
    simp only [AlbumFilters.mk.injEq]
    exact ⟨hpage, hsearch⟩
  refine ⟨?_, ?_, inj⟩
  · intro c; simp [cacheSet, cacheGet]
  · intro hne
    have hk : ¬(getCacheKey f = getCacheKey f') := fun h => hne (inj h)
    simp [cacheSet, cacheGet, hk]

/-- Concrete instantiation of `getCacheKey_put_get`: page 1 with search
`"a"` round-trips, and page 2 with the empty search misses. -/
theorem getCacheKey_put_get_witness :
    cacheGet (cacheSet [] (getCacheKey ⟨1, "a"⟩) sampleResponse) (getCacheKey ⟨1, "a"⟩)
        = some sampleResponse ∧
    cacheGet (cacheSet [] (getCacheKey ⟨1, "a"⟩) sampleResponse) (getCacheKey ⟨2, ""⟩)
        = none :=
  ⟨(getCacheKey_put_get ⟨1, "a"⟩ ⟨2, ""⟩ sampleResponse (by decide) (by decide)).1 [],
   (getCacheKey_put_get ⟨1, "a"⟩ ⟨2, ""⟩ sampleResponse (by decide) (by decide)).2.1
     (by decide)⟩

/-- C4: after a query that populated the cache, repeating the same
filter with no intervening mutation consults the remote authority no
second time: the outcome ignores the remote argument, the store is left
exactly as the first call left it (same visible collection and
pagination metadata), and the session is ready. -/
theorem fetchAlbums_second_call_cached (st : AlbumStore) (f : AlbumFilters)
    (body : PaginatedAlbumResponse) (r2 : RemoteResult PaginatedAlbumResponse)
    (hmiss : cacheGet st.cache (getCacheKey f) = none) :
    (fetchAlbums (fetchAlbums st f (RemoteResult.ok body)).store f r2).remoteCalled = false ∧
    (fetchAlbums (fetchAlbums st f (RemoteResult.ok body)).store f r2).store
      = (fetchAlbums st f (RemoteResult.ok body)).store ∧
    (fetchAlbums (fetchAlbums st f (RemoteResult.ok body)).store f r2).store.albums
      = body.data ∧
    (fetchAlbums (fetchAlbums st f (RemoteResult.ok body)).store f r2).store.totalPages
      = body.last_page ∧
    sessionReady (fetchAlbums (fetchAlbums st f (RemoteResult.ok body)).store f r2).store := by
  simp [fetchAlbums, hmiss, cacheGet, cacheSet, sessionReady]

/-- Concrete instantiation of `fetchAlbums_second_call_cached` from a
store with an empty cache: the repeat query is a cache hit. -/
theorem fetchAlbums_second_call_cached_witness :
    (fetchAlbums (fetchAlbums storeWithAlbum ⟨1, ""⟩ (RemoteResult.ok sampleResponse)).store
        ⟨1, ""⟩ (RemoteResult.err "network down")).remoteCalled = false ∧
    (fetchAlbums (fetchAlbums storeWithAlbum ⟨1, ""⟩ (RemoteResult.ok sampleResponse)).store
        ⟨1, ""⟩ (RemoteResult.err "network down")).store
      = (fetchAlbums storeWithAlbum ⟨1, ""⟩ (RemoteResult.ok sampleResponse)).store ∧
    (fetchAlbums (fetchAlbums storeWithAlbum ⟨1, ""⟩ (RemoteResult.ok sampleResponse)).store
        ⟨1, ""⟩ (RemoteResult.err "network down")).store.albums = sampleResponse.data ∧
    (fetchAlbums (fetchAlbums storeWithAlbum ⟨1, ""⟩ (RemoteResult.ok sampleResponse)).store
        ⟨1, ""⟩ (RemoteResult.err "network down")).store.totalPages
      = sampleResponse.last_page ∧
    sessionReady
      (fetchAlbums (fetchAlbums storeWithAlbum ⟨1, ""⟩ (RemoteResult.ok sampleResponse)).store
        ⟨1, ""⟩ (RemoteResult.err "network down")).store :=
  fetchAlbums_second_call_cached storeWithAlbum ⟨1, ""⟩ sampleResponse
    (RemoteResult.err "network down") (by decide)

/-- C5: when the list request fails (non-2xx or transport), the session
records the message and ends errored, the previously visible collection,
pagination metadata and cache are untouched, and nothing is re-raised to
the caller. -/
theorem fetchAlbums_failure_preserves_state (st : AlbumStore) (f : AlbumFilters)
    (msg : String) (hmiss : cacheGet st.cache (getCacheKey f) = none) :
    (fetchAlbums st f (RemoteResult.err msg)).store.albums = st.albums ∧
    (fetchAlbums st f (RemoteResult.err msg)).store.totalPages = st.totalPages ∧
    (fetchAlbums st f (RemoteResult.err msg)).store.cache = st.cache ∧
    (fetchAlbums st f (RemoteResult.err msg)).store.error = some msg ∧
    sessionErrored (fetchAlbums st f (RemoteResult.err msg)).store ∧
    (fetchAlbums st f (RemoteResult.err msg)).thrown = none := by
  simp [fetchAlbums, hmiss, sessionErrored]

/-- Concrete instantiation of `fetchAlbums_failure_preserves_state` on a
store already holding an album: the failure leaves it visible. -/
theorem fetchAlbums_failure_preserves_state_witness :
    (fetchAlbums storeWithAlbum ⟨1, ""⟩ (RemoteResult.err "Failed to fetch albums")).store.albums
      = storeWithAlbum.albums ∧
    (fetchAlbums storeWithAlbum ⟨1, ""⟩
        (RemoteResult.err "Failed to fetch albums")).store.totalPages
      = storeWithAlbum.totalPages ∧
    (fetchAlbums storeWithAlbum ⟨1, ""⟩ (RemoteResult.err "Failed to fetch albums")).store.cache
      = storeWithAlbum.cache ∧
    (fetchAlbums storeWithAlbum ⟨1, ""⟩ (RemoteResult.err "Failed to fetch albums")).store.error
      = some "Failed to fetch albums" ∧
    sessionErrored
      (fetchAlbums storeWithAlbum ⟨1, ""⟩ (RemoteResult.err "Failed to fetch albums")).store ∧
    (fetchAlbums storeWithAlbum ⟨1, ""⟩ (RemoteResult.err "Failed to fetch albums")).thrown
      = none :=
  fetchAlbums_failure_preserves_state storeWithAlbum ⟨1, ""⟩ "Failed to fetch albums"
    (by decide)

/-- C1: the in-flight gate of `voteAlbum`.  A call for an id already in
`voteLoading` returns at once — identical store (visible collection,
cache, error all untouched), no remote call, nothing thrown.  The id is
in the in-flight set exactly while its single call is outstanding: it is
a member right after entry and no longer a member once the call
returns, whichever way the remote call went. -/
theorem voteAlbum_inflight_gate (st : AlbumStore) (albumId : Nat) (v : VoteValue)
    (r : RemoteResult VoteResponse) :
    (albumId ∈ st.voteLoading →
      voteAlbum st albumId v r = ⟨st, false, none⟩) ∧
    albumId ∈ (voteStart st albumId).voteLoading ∧
    (albumId ∉ st.voteLoading →
      albumId ∉ (voteAlbum st albumId v r).store.voteLoading) := by
  refine ⟨fun h => by simp [voteAlbum, h], by simp [voteStart], fun h => ?_⟩
  cases r <;> simp [voteAlbum, h, voteStart, voteFinish, List.mem_filter]

/-- Concrete instantiation of `voteAlbum_inflight_gate`: with album 1 in
flight the second vote is a no-op, and from an idle store a completed
vote leaves nothing in flight. -/
theorem voteAlbum_inflight_gate_witness :
    voteAlbum storeInFlight 1 VoteValue.up (RemoteResult.ok sampleVoteResponse)
        = ⟨storeInFlight, false, none⟩ ∧
    1 ∈ (voteStart storeWithAlbum 1).voteLoading ∧
    1 ∉ (voteAlbum storeWithAlbum 1 VoteValue.up
        (RemoteResult.ok sampleVoteResponse)).store.voteLoading :=
  ⟨(voteAlbum_inflight_gate storeInFlight 1 VoteValue.up
      (RemoteResult.ok sampleVoteResponse)).1 (by decide),
   (voteAlbum_inflight_gate storeWithAlbum 1 VoteValue.up
      (RemoteResult.ok sampleVoteResponse)).2.1,
   (voteAlbum_inflight_gate storeWithAlbum 1 VoteValue.up
      (RemoteResult.ok sampleVoteResponse)).2.2 (by decide)⟩

/-- Replacing the votes of the first id match keeps the list length. -/
theorem setVotesFirst_length (l : List Album) (albumId : Nat) (vs : List Vote) :
    (setVotesFirst l albumId vs).length = l.length := by
  induction l with
  | nil => rfl
  | cons a rest ih =>
    by_cases h : a.id = albumId <;> simp [setVotesFirst, h, ih]

/-- If position `i` holds the first album whose id matches, then
`setVotesFirst` rewrites exactly position `i` — its votes become the
new vote set, every other field and every other position is unchanged. -/
theorem setVotesFirst_getElem (l : List Album) (i : Nat) (albumId : Nat)
    (vs : List Vote) (a0 : Album)
    (hi : l[i]? = some a0) (hid : a0.id = albumId)
    (hfirst : ∀ j, j < i → ∀ b, l[j]? = some b → b.id ≠ albumId) :
    (setVotesFirst l albumId vs)[i]? = some { a0 with votes := vs } ∧
    ∀ j, j ≠ i → (setVotesFirst l albumId vs)[j]? = l[j]? := by
  induction l generalizing i with
  | nil => simp at hi
  | cons a rest ih =>
    cases i with
    | zero =>
      rw [List.getElem?_cons_zero, Option.some.injEq] at hi
      subst hi
      rw [setVotesFirst, if_pos hid]
      refine ⟨by simp, ?_⟩
      intro j hj
      cases j with
      | zero => exact absurd rfl hj
      | succ m => simp
    | succ k =>
      have ha : a.id ≠ albumId :=
        hfirst 0 (Nat.succ_pos k) a List.getElem?_cons_zero
      rw [setVotesFirst, if_neg ha]
      have hrec := ih k (by simpa using hi) (by
        intro j hj b hb
        exact hfirst (j + 1) (by omega) b (by simpa using hb))
      refine ⟨by simpa using hrec.1, ?_⟩
      intro j hj
      cases j with
      | zero => simp
      | succ m =>
        rw [List.getElem?_cons_succ, List.getElem?_cons_succ]
        exact hrec.2 m (by omega)

/-- When no album in the list carries the id, `setVotesFirst` is the
identity, mirroring `findIndex` returning `-1`. -/
theorem setVotesFirst_no_match (l : List Album) (albumId : Nat) (vs : List Vote)
    (h : ∀ a ∈ l, a.id ≠ albumId) : setVotesFirst l albumId vs = l := by
  induction l with
  | nil => rfl
  | cons a rest ih =>
    rw [setVotesFirst, if_neg (h a (List.mem_cons_self a rest))]
    rw [ih (fun b hb => h b (List.mem_cons_of_mem a hb))]

/-- C2: a successful vote for an album that is visible (first id match
at position `i`) wholesale replaces that album's `votes` with the
authority's vote set, keeps its every other field and every other album
unchanged, keeps the collection's length, clears the read cache (every
key now misses), and completes normally. -/
theorem voteAlbum_success_replaces_votes (st : AlbumStore) (albumId : Nat)
    (v : VoteValue) (body : VoteResponse) (i : Nat) (a0 : Album)
    (hguard : albumId ∉ st.voteLoading)
    (hi : st.albums[i]? = some a0) (hid : a0.id = albumId)
    (hfirst : ∀ j, j < i → ∀ b, st.albums[j]? = some b → b.id ≠ albumId) :
    (voteAlbum st albumId v (RemoteResult.ok body)).store.albums[i]?
        = some { a0 with votes := body.votes } ∧
    (∀ j, j ≠ i →
      (voteAlbum st albumId v (RemoteResult.ok body)).store.albums[j]? = st.albums[j]?) ∧
    (voteAlbum st albumId v (RemoteResult.ok body)).store.albums.length
        = st.albums.length ∧
    (∀ g : String,
      cacheGet (voteAlbum st albumId v (RemoteResult.ok body)).store.cache g = none) ∧
    (voteAlbum st albumId v (RemoteResult.ok body)).thrown = none := by
  have hspec := setVotesFirst_getElem st.albums i albumId body.votes a0 hi hid hfirst
  simp only [voteAlbum, hguard, if_neg, voteStart, voteFinish]
  simp [hspec.1, setVotesFirst_length, cacheGet]
  exact fun j hj => hspec.2 j hj

/-- Concrete instantiation of `voteAlbum_success_replaces_votes`:
voting on the single visible album swaps in the two-vote response set. -/
theorem voteAlbum_success_replaces_votes_witness :
    (voteAlbum storeWithAlbum 1 VoteValue.down
        (RemoteResult.ok sampleVoteResponse)).store.albums[0]?
      = some { sampleAlbum with votes := sampleVoteResponse.votes } ∧
    (∀ j, j ≠ 0 →
      (voteAlbum storeWithAlbum 1 VoteValue.down
          (RemoteResult.ok sampleVoteResponse)).store.albums[j]?
        = storeWithAlbum.albums[j]?) ∧
    (voteAlbum storeWithAlbum 1 VoteValue.down
        (RemoteResult.ok sampleVoteResponse)).store.albums.length
      = storeWithAlbum.albums.length ∧
    (∀ g : String,
      cacheGet (voteAlbum storeWithAlbum 1 VoteValue.down
          (RemoteResult.ok sampleVoteResponse)).store.cache g = none) ∧
    (voteAlbum storeWithAlbum 1 VoteValue.down
        (RemoteResult.ok sampleVoteResponse)).thrown = none :=
  voteAlbum_success_replaces_votes storeWithAlbum 1 VoteValue.down sampleVoteResponse 0
    sampleAlbum (by decide) rfl rfl
    (fun j hj => (Nat.not_lt_zero j hj).elim)

/-- C6: when the vote call fails, the message (non-empty in the claimed
scenario) is recorded in the session error state and then re-raised to
the caller; the visible collection (hence the target's vote set) and the
cache are untouched; and the id leaves the in-flight set — on failure
and on success alike — so a later vote for it passes the gate. -/
theorem voteAlbum_failure_records_and_rethrows (st : AlbumStore) (albumId : Nat)
    (v : VoteValue) (msg : String)
    (hguard : albumId ∉ st.voteLoading) (hmsg : msg ≠ "") :
    (voteAlbum st albumId v (RemoteResult.err msg)).store.error = some msg ∧
    msg ≠ "" ∧
    (voteAlbum st albumId v (RemoteResult.err msg)).thrown = some msg ∧
    (voteAlbum st albumId v (RemoteResult.err msg)).store.albums = st.albums ∧
    (voteAlbum st albumId v (RemoteResult.err msg)).store.cache = st.cache ∧
    albumId ∉ (voteAlbum st albumId v (RemoteResult.err msg)).store.voteLoading ∧
    (∀ body : VoteResponse,
      albumId ∉ (voteAlbum st albumId v (RemoteResult.ok body)).store.voteLoading) := by
  refine ⟨?_, hmsg, ?_, ?_, ?_, ?_, ?_⟩ <;>
    simp [voteAlbum, hguard, voteStart, voteFinish, List.mem_filter]

/-- Concrete instantiation of `voteAlbum_failure_records_and_rethrows`
with a transport failure message. -/
theorem voteAlbum_failure_records_and_rethrows_witness :
    (voteAlbum storeWithAlbum 1 VoteValue.up
        (RemoteResult.err "Failed to vote")).store.error = some "Failed to vote" ∧
    ("Failed to vote" : String) ≠ "" ∧
    (voteAlbum storeWithAlbum 1 VoteValue.up
        (RemoteResult.err "Failed to vote")).thrown = some "Failed to vote" ∧
    (voteAlbum storeWithAlbum 1 VoteValue.up
        (RemoteResult.err "Failed to vote")).store.albums = storeWithAlbum.albums ∧
    (voteAlbum storeWithAlbum 1 VoteValue.up
        (RemoteResult.err "Failed to vote")).store.cache = storeWithAlbum.cache ∧
    1 ∉ (voteAlbum storeWithAlbum 1 VoteValue.up
        (RemoteResult.err "Failed to vote")).store.voteLoading ∧
    (∀ body : VoteResponse,
      1 ∉ (voteAlbum storeWithAlbum 1 VoteValue.up
          (RemoteResult.ok body)).store.voteLoading) :=
  voteAlbum_failure_records_and_rethrows storeWithAlbum 1 VoteValue.up "Failed to vote"
    (by decide) (by decide)

/-- C10: a successful vote for an id that is not in the visible
collection completes without raising: no album changes, yet the cache is
still cleared and the id leaves the in-flight set, with no error
recorded. -/
theorem voteAlbum_success_missing_album (st : AlbumStore) (albumId : Nat)
    (v : VoteValue) (body : VoteResponse)
    (hguard : albumId ∉ st.voteLoading)
    (habsent : ∀ a ∈ st.albums, a.id ≠ albumId) :
    (voteAlbum st albumId v (RemoteResult.ok body)).thrown = none ∧
    (voteAlbum st albumId v (RemoteResult.ok body)).store.albums = st.albums ∧
    (∀ g : String,
      cacheGet (voteAlbum st albumId v (RemoteResult.ok body)).store.cache g = none) ∧
    albumId ∉ (voteAlbum st albumId v (RemoteResult.ok body)).store.voteLoading ∧
    (voteAlbum st albumId v (RemoteResult.ok body)).store.error = none := by
  simp [voteAlbum, hguard, voteStart, voteFinish, cacheGet,
    setVotesFirst_no_match st.albums albumId body.votes habsent, List.mem_filter]

/-- Concrete instantiation of `voteAlbum_success_missing_album`: voting
for the absent id 99 touches no visible album. -/
theorem voteAlbum_success_missing_album_witness :
    (voteAlbum storeWithAlbum 99 VoteValue.up
        (RemoteResult.ok sampleVoteResponse)).thrown = none ∧
    (voteAlbum storeWithAlbum 99 VoteValue.up
        (RemoteResult.ok sampleVoteResponse)).store.albums = storeWithAlbum.albums ∧
    (∀ g : String,
      cacheGet (voteAlbum storeWithAlbum 99 VoteValue.up
          (RemoteResult.ok sampleVoteResponse)).store.cache g = none) ∧
    99 ∉ (voteAlbum storeWithAlbum 99 VoteValue.up
        (RemoteResult.ok sampleVoteResponse)).store.voteLoading ∧
    (voteAlbum storeWithAlbum 99 VoteValue.up
        (RemoteResult.ok sampleVoteResponse)).store.error = none :=
  voteAlbum_success_missing_album storeWithAlbum 99 VoteValue.up sampleVoteResponse
    (by decide) (by decide)

/-- C7: `deleteAlbum`.  On success the album is removed from the
visible collection by identity (an album stays visible iff it was
visible and its id differs), the cache is cleared so any subsequent
query — whatever its filter — consults the remote authority again, and
nothing is thrown.  On failure the visible collection and the cache are
unchanged, the message is recorded as the session error, and the
failure is re-raised to the caller. -/
theorem deleteAlbum_contract (st : AlbumStore) (albumId : Nat) :
    (∀ a ∈ (deleteAlbum st albumId (RemoteResult.ok ())).store.albums, a.id ≠ albumId) ∧
    (∀ a : Album,
      a ∈ (deleteAlbum st albumId (RemoteResult.ok ())).store.albums ↔
        a ∈ st.albums ∧ a.id ≠ albumId) ∧
    (deleteAlbum st albumId (RemoteResult.ok ())).thrown = none ∧
    (∀ (f : AlbumFilters) (r : RemoteResult PaginatedAlbumResponse),
      (fetchAlbums (deleteAlbum st albumId (RemoteResult.ok ())).store f r).remoteCalled
        = true) ∧
    (∀ msg : String,
      (deleteAlbum st albumId (RemoteResult.err msg)).store.albums = st.albums ∧
      (deleteAlbum st albumId (RemoteResult.err msg)).store.cache = st.cache ∧
      (deleteAlbum st albumId (RemoteResult.err msg)).store.error = some msg ∧
      (deleteAlbum st albumId (RemoteResult.err msg)).thrown = some msg) := by
  refine ⟨?_, ?_, rfl, ?_, ?_⟩
  · intro a ha
    simp [deleteAlbum, List.mem_filter] at ha
    exact ha.2
  · intro a
    simp [deleteAlbum, List.mem_filter]
  · intro f r
    cases r <;> simp [fetchAlbums, deleteAlbum, cacheGet]
  · intro msg
    simp [deleteAlbum]

/-- Concrete instantiation of `deleteAlbum_contract`: deleting album 1
empties the visible collection, and a cached-page query afterwards
goes back to the remote authority. -/
theorem deleteAlbum_contract_witness :
    (∀ a ∈ (deleteAlbum storeWithAlbum 1 (RemoteResult.ok ())).store.albums, a.id ≠ 1) ∧
    (∀ a : Album,
      a ∈ (deleteAlbum storeWithAlbum 1 (RemoteResult.ok ())).store.albums ↔
        a ∈ storeWithAlbum.albums ∧ a.id ≠ 1) ∧
    (deleteAlbum storeWithAlbum 1 (RemoteResult.ok ())).thrown = none ∧
    (∀ (f : AlbumFilters) (r : RemoteResult PaginatedAlbumResponse),
      (fetchAlbums (deleteAlbum storeWithAlbum 1 (RemoteResult.ok ())).store f r).remoteCalled
        = true) ∧
    (∀ msg : String,
      (deleteAlbum storeWithAlbum 1 (RemoteResult.err msg)).store.albums
          = storeWithAlbum.albums ∧
      (deleteAlbum storeWithAlbum 1 (RemoteResult.err msg)).store.cache
          = storeWithAlbum.cache ∧
      (deleteAlbum storeWithAlbum 1 (RemoteResult.err msg)).store.error = some msg ∧
      (deleteAlbum storeWithAlbum 1 (RemoteResult.err msg)).thrown = some msg) :=
  deleteAlbum_contract storeWithAlbum 1
